import Mathlib

/-!
Shallow embedding of the data-normalization and record-matching core of
`src/app.py` (R.O / BO impediment manager), together with theorems settling
the specification claims about it.

Spreadsheet cells are modelled as `Option String`: `none` stands for a pandas
missing value (`NaN` / `None`), `some s` for a textual cell value.  Regular
expressions over the small fixed character classes used by the source are
modelled by explicit structural recursion on character lists, so that every
definition evaluates by `decide` / `rfl` on concrete inputs.
-/

namespace ROManager

/-- Model of a spreadsheet cell: `none` is a pandas missing value. -/
abbrev Cell := Option String

/-- Whitespace test modelling Python's `str.strip` characters and the regex
class `\s` (ASCII subset, which covers the whitespace present in the data). -/
def isWs (c : Char) : Bool :=
  c = ' ' || c = '\t' || c = '\n' || c = '\r' || c = '\x0b' || c = '\x0c'

/-- Model of Python `str.strip` on a character list. -/
def trimList (l : List Char) : List Char :=
  ((l.dropWhile isWs).reverse.dropWhile isWs).reverse

/-- Model of Python `str.strip` on strings. -/
def pyStrip (s : String) : String := String.mk (trimList s.toList)

/-- Function `strip_all` of `src/app.py`: replace `\n` and `\r` by spaces
(single-character `str.replace`, hence a character map) and strip; a missing
value passes through. -/
def strip_all (s : Cell) : Cell :=
  match s with
  | none => none
  | some t =>
      some (pyStrip (String.mk (t.toList.map
        (fun c => if c = '\n' || c = '\r' then ' ' else c))))

/-- Model of `re.sub(r"\s+", " ", s)`: collapse each maximal whitespace run to
a single space.  The flag records whether the previous character was part of a
whitespace run. -/
def collapseWsAux : Bool → List Char → List Char
  | _, [] => []
  | prevWs, c :: cs =>
    if isWs c then
      if prevWs then collapseWsAux true cs else ' ' :: collapseWsAux true cs
    else c :: collapseWsAux false cs

/-- Model of `re.sub(r"\s+([,.])", r"\1", s)`: delete any whitespace run that
is immediately followed by a comma or period.  `pend` holds the pending
whitespace run in reverse. -/
def rmWsPunctAux : List Char → List Char → List Char
  | pend, [] => pend.reverse
  | pend, c :: cs =>
    if isWs c then rmWsPunctAux (c :: pend) cs
    else if c = ',' || c = '.' then c :: rmWsPunctAux [] cs
    else pend.reverse ++ c :: rmWsPunctAux [] cs

/-- Function `normalize_spaces` of `src/app.py`: collapse whitespace runs,
remove whitespace before `,` and `.`, then strip; a missing value passes
through. -/
def normalize_spaces (s : Cell) : Cell :=
  match s with
  | none => none
  | some t =>
      some (pyStrip (String.mk (rmWsPunctAux [] (collapseWsAux false t.toList))))

/-- Function `normalize_text` of `src/app.py`. -/
def normalize_text (s : Cell) : Cell := normalize_spaces (strip_all s)

/-- Model of `re.sub(r"[^0-9/\-]", "", s)`: keep only digits, `/` and `-`. -/
def stripBOChars (s : String) : String :=
  String.mk (s.toList.filter (fun c => c.isDigit || c = '/' || c = '-'))

/-- Consume exactly `n` digits from the front of a character list, returning
the rest on success. -/
def digitsN : Nat → List Char → Option (List Char)
  | 0, l => some l
  | _ + 1, [] => none
  | n + 1, c :: l => if c.isDigit then digitsN n l else none

/-- Model of `re.fullmatch(r"\d{3}-\d{5}/\d{4}", s)` as a Boolean. -/
def matchesBOPattern (s : String) : Bool :=
  match digitsN 3 s.toList with
  | some ('-' :: r1) =>
    match digitsN 5 r1 with
    | some ('/' :: r2) =>
      match digitsN 4 r2 with
      | some [] => true
      | _ => false
    | _ => false
  | _ => false

/-- Model of `re.findall(r"\d+", s)`: the maximal digit runs, in order.
`cur` holds the digits of the run currently being read, in reverse. -/
def digitRunsAux : List Char → List Char → List (List Char)
  | cur, [] => if cur.isEmpty then [] else [cur.reverse]
  | cur, c :: cs =>
    if c.isDigit then digitRunsAux (c :: cur) cs
    else if cur.isEmpty then digitRunsAux [] cs
    else cur.reverse :: digitRunsAux [] cs

/-- The maximal digit runs of a string. -/
def digitRuns (s : String) : List String :=
  (digitRunsAux [] s.toList).map String.mk

/-- Model of Python `str.zfill n` (the runs it is applied to carry no sign). -/
def zfill (n : Nat) (s : String) : String :=
  String.mk (List.replicate (n - s.toList.length) '0' ++ s.toList)

/-- Model of Python slicing `s[-n:]`. -/
def lastN (n : Nat) (s : String) : String :=
  String.mk (s.toList.drop (s.toList.length - n))

/-- Function `normalize_bo` of `src/app.py`: missing or blank input gives
`none`; otherwise strip to digits and separators, pass a full
`\d{3}-\d{5}/\d{4}` match through, else rebuild `A-B/C` from the last three
digit runs, else return the stripped string when non-empty. -/
def normalize_bo (bo : Cell) : Cell :=
  match bo with
  | none => none
  | some bs =>
    if pyStrip bs = "" then none
    else
      let s := stripBOChars bs
      if matchesBOPattern s then some s
      else
        match (digitRuns s).reverse with
        | c :: b :: a :: _ =>
            some (lastN 3 (zfill 3 a) ++ "-" ++ lastN 5 (zfill 5 b) ++ "/" ++
              lastN 4 (zfill 4 c))
        | _ => if s = "" then none else some s

/-- A calendar date as produced by `datetime.date`. -/
structure PDate where
  year : Nat
  month : Nat
  day : Nat
  deriving DecidableEq, Repr

/-- Proleptic-Gregorian leap-year rule used by `datetime`. -/
def isLeap (y : Nat) : Bool := (y % 4 = 0 && y % 100 != 0) || y % 400 = 0

/-- Number of days of month `m` of year `y`. -/
def daysInMonth (y m : Nat) : Nat :=
  if m = 2 then (if isLeap y then 29 else 28)
  else if m = 4 || m = 6 || m = 9 || m = 11 then 30
  else 31

/-- Numeric value of a digit sequence. -/
def digitsToNat (l : List Char) : Nat :=
  l.foldl (fun acc c => acc * 10 + (c.toNat - '0'.toNat)) 0

/-- Model of a `strptime` day or month field: one or two digits whose value
lies in `lo..hi` (the `%d` / `%m` patterns). -/
def parse2 (lo hi : Nat) (l : List Char) : Option Nat :=
  if (l.length = 1 || l.length = 2) && l.all Char.isDigit then
    let n := digitsToNat l
    if lo ≤ n && n ≤ hi then some n else none
  else none

/-- Model of the `strptime` `%Y` field: exactly four digits. -/
def parseY (l : List Char) : Option Nat :=
  if l.length = 4 && l.all Char.isDigit then some (digitsToNat l) else none

/-- The `datetime(...)` constructor's validation: year at least 1 and the day
within the month (`strptime` raises `ValueError` otherwise, which the source
catches before trying the next format). -/
def mkValidDate (y m d : Nat) : Option PDate :=
  if 1 ≤ y && 1 ≤ d && d ≤ daysInMonth y m then some ⟨y, m, d⟩ else none

/-- Split a character list at every occurrence of `sep`. -/
def splitChar (sep : Char) : List Char → List (List Char)
  | [] => [[]]
  | c :: cs =>
    if c = sep then [] :: splitChar sep cs
    else
      match splitChar sep cs with
      | h :: t => (c :: h) :: t
      | [] => [[c]]

/-- Model of `datetime.strptime(s, "%d/%m/%Y")` (and the `-`-separated
variant): day, month, four-digit year, then calendar validation. -/
def parseDMY (sep : Char) (s : String) : Option PDate :=
  match splitChar sep s.toList with
  | [df, mf, yf] =>
    match parse2 1 31 df, parse2 1 12 mf, parseY yf with
    | some d, some m, some y => mkValidDate y m d
    | _, _, _ => none
  | _ => none

/-- Model of `datetime.strptime(s, "%m/%d/%Y")`. -/
def parseMDY (sep : Char) (s : String) : Option PDate :=
  match splitChar sep s.toList with
  | [mf, df, yf] =>
    match parse2 1 12 mf, parse2 1 31 df, parseY yf with
    | some m, some d, some y => mkValidDate y m d
    | _, _, _ => none
  | _ => none

/-- Model of `datetime.strptime(s, "%Y-%m-%d")`. -/
def parseYMD (sep : Char) (s : String) : Option PDate :=
  match splitChar sep s.toList with
  | [yf, mf, df] =>
    match parseY yf, parse2 1 12 mf, parse2 1 31 df with
    | some y, some m, some d => mkValidDate y m d
    | _, _, _ => none
  | _ => none

/-- Function `try_parse_date_any` of `src/app.py`, on textual input.  The
explicit formats are tried in source order (`%d/%m/%Y`, `%d-%m-%Y`,
`%m/%d/%Y`, `%Y-%m-%d`); the trailing `pd.to_datetime` fallback (tried with
`dayfirst=True`, then `False`) is kept abstract as the `fallback` argument,
since the source only reaches it when every explicit format has failed. -/
def try_parse_date_any (fallback : Bool → String → Option PDate)
    (dval : Cell) : Option PDate :=
  match dval with
  | none => none
  | some s0 =>
    let s := pyStrip s0
    match parseDMY '/' s with
    | some d => some d
    | none =>
      match parseDMY '-' s with
      | some d => some d
      | none =>
        match parseMDY '/' s with
        | some d => some d
        | none =>
          match parseYMD '-' s with
          | some d => some d
          | none =>
            match fallback true s with
            | some d => some d
            | none => fallback false s

/-- Decomposition table modelling `unicodedata.normalize('NFD', ·)` followed
by dropping combining marks, for the precomposed Latin letters that occur in
Brazilian place names; any other character is kept as is. -/
def deaccentChar : Char → Char
  | 'á' | 'à' | 'â' | 'ã' | 'ä' => 'a'
  | 'Á' | 'À' | 'Â' | 'Ã' | 'Ä' => 'A'
  | 'é' | 'è' | 'ê' | 'ë' => 'e'
  | 'É' | 'È' | 'Ê' | 'Ë' => 'E'
  | 'í' | 'ì' | 'î' | 'ï' => 'i'
  | 'Í' | 'Ì' | 'Î' | 'Ï' => 'I'
  | 'ó' | 'ò' | 'ô' | 'õ' | 'ö' => 'o'
  | 'Ó' | 'Ò' | 'Ô' | 'Õ' | 'Ö' => 'O'
  | 'ú' | 'ù' | 'û' | 'ü' => 'u'
  | 'Ú' | 'Ù' | 'Û' | 'Ü' => 'U'
  | 'ç' => 'c'
  | 'Ç' => 'C'
  | 'ñ' => 'n'
  | 'Ñ' => 'N'
  | c => c

/-- A standalone combining mark (dropped by the `Mn`-category filter). -/
def isCombiningMark (c : Char) : Bool :=
  decide (0x300 ≤ c.toNat) && decide (c.toNat ≤ 0x36F)

/-- Function `strip_accents` of `src/app.py`: NFD-decompose and drop combining
marks, modelled by mapping precomposed letters to their base letter and
dropping standalone combining marks. -/
def strip_accents (s : String) : String :=
  String.mk ((s.toList.filter (fun c => !isCombiningMark c)).map deaccentChar)

/-- Model of Python `str.upper` (ASCII range; accent stripping has already
mapped the accented Latin letters of the data into ASCII). -/
def pyUpper (s : String) : String := String.mk (s.toList.map Char.toUpper)

/-- Function `norm_city_name` of `src/app.py`: missing values map to the empty
string, text is accent-stripped, upper-cased and stripped. -/
def norm_city_name (s : Cell) : String :=
  match s with
  | none => ""
  | some t => pyStrip (pyUpper (strip_accents t))

/-- The `CITY_FIX` correction table of `src/app.py`. -/
def CITY_FIX : List (String × String) :=
  [("SAO JOAO DE MERIT", "SAO JOAO DE MERITI"),
   ("DUQUE DE CAXIA", "DUQUE DE CAXIAS"),
   ("RIO DE JANEIRO-", "RIO DE JANEIRO")]

/-- Function `apply_city_fix` of `src/app.py`: `CITY_FIX.get(base, base)`
applied to the normalized name. -/
def apply_city_fix (s : Cell) : String :=
  let base := norm_city_name s
  (CITY_FIX.lookup base).getD base

/-- One boundary feature of the municipality GeoJSON, reduced to the fields
the join uses: the feature id and the display-name property. -/
structure Boundary where
  id : Nat
  name : Cell
  deriving DecidableEq, Repr

/-- The record-side aggregate `city_counts` of `src/app.py`:
`fdf.assign(Cidade_norm=...apply(apply_city_fix)).groupby("Cidade_norm").size()`,
one row per distinct key with the size of its group (pandas additionally
sorts the keys, which no claim depends on). -/
def city_counts (cities : List Cell) : List (String × Nat) :=
  let keys := (cities.map apply_city_fix).dedup
  keys.map (fun k => (k, (cities.map apply_city_fix).count k))

/-- The left join `muni_df.merge(city_counts, on="Cidade_norm", how="left")`
followed by `fillna({"Qtde": 0})` of `src/app.py`: every boundary row is kept,
paired with the count found for its normalized name, `0` when absent (the
group keys are distinct, so the merge matches at most one row). -/
def joined (bs : List Boundary) (cities : List Cell) : List (Nat × Nat) :=
  bs.map (fun b => (b.id, ((city_counts cities).lookup (norm_city_name b.name)).getD 0))

/-- The diagnostic `nao_casaram` of `src/app.py`:
`set(city_counts["Cidade_norm"]) - set(muni_df["Cidade_norm"])` (the source
also sorts the result, which no claim depends on). -/
def nao_casaram (bs : List Boundary) (cities : List Cell) : List String :=
  ((cities.map apply_city_fix).dedup).filter
    (fun k => !(bs.any (fun b => norm_city_name b.name == k)))

/-- Model of pandas `astype(str)` on a cell: a missing value is the float
`NaN`, which `str` renders as `"nan"`. -/
def pdStr (c : Cell) : String :=
  match c with
  | none => "nan"
  | some s => s

/-- Model of `Series.duplicated(keep=False)`: true at every position whose
value occurs more than once in the series. -/
def duplicatedKeepFalse (l : List String) : List Bool :=
  l.map (fun x => decide (2 ≤ l.count x))

/-- The `Duplicado_ID` column of `src/app.py`:
`df["ID_Chamado"].astype(str).duplicated(keep=False)`. -/
def Duplicado_ID (ids : List Cell) : List Bool :=
  duplicatedKeepFalse (ids.map pdStr)

/-- The `Duplicado_BO` column of `src/app.py`:
`bo_tmp = df["BO_Numero_Normalizado"].fillna("__NA__").astype(str)` and then
`bo_tmp.duplicated(keep=False) & (bo_tmp != "__NA__")`, elementwise. -/
def Duplicado_BO (bos : List Cell) : List Bool :=
  let tmp := bos.map (fun c => c.getD "__NA__")
  tmp.map (fun x => decide (2 ≤ tmp.count x) && x != "__NA__")

/-- The jsDelivr CDN URL template of `load_geojson_municipios`. -/
def cdn_url (uf_code : String) : String :=
  "https://cdn.jsdelivr.net/gh/tbrugz/geodata-br/geojson/geojs-" ++ uf_code ++ "-mun.json"

/-- The GitHub Raw URL template of `load_geojson_municipios`. -/
def gh_url (uf_code : String) : String :=
  "https://raw.githubusercontent.com/tbrugz/geodata-br/master/geojson/geojs-" ++ uf_code ++ "-mun.json"

/-- The IBGE meshes API URL template of `load_geojson_municipios` (its fixed
query parameters `resolucao=5`, `formato`, `qualidade=2` ride along with the
URL in this model). -/
def ibge_url (uf_code : String) : String :=
  "https://servicodados.ibge.gov.br/api/v3/malhas/estados/" ++ uf_code

/-- The message of the `RuntimeError` raised by `load_geojson_municipios`
when every source has failed. -/
def geojson_fail_msg : String :=
  "Não foi possível carregar o GeoJSON de municípios desta UF pelas fontes disponíveis."

/-- Function `load_geojson_municipios` of `src/app.py`.  The network is
abstracted by two request functions from URL to optional response body
(`fetch` with SSL verification, `fetchInsecure` with `verify=False`); `none`
models any failure of the attempt (network error, bad status, bad body).
Sources are tried in order: CDN, GitHub Raw, IBGE; with `allow_insecure` the
same three are retried without verification; exhaustion raises the fixed
`RuntimeError`, modelled as `Except.error`. -/
def load_geojson_municipios {α : Type} (fetch fetchInsecure : String → Option α)
    (uf_code : String) (allow_insecure : Bool) : Except String α :=
  match fetch (cdn_url uf_code) with
  | some g => .ok g
  | none =>
  match fetch (gh_url uf_code) with
  | some g => .ok g
  | none =>
  match fetch (ibge_url uf_code) with
  | some g => .ok g
  | none =>
  if allow_insecure then
    match fetchInsecure (cdn_url uf_code) with
    | some g => .ok g
    | none =>
    match fetchInsecure (gh_url uf_code) with
    | some g => .ok g
    | none =>
    match fetchInsecure (ibge_url uf_code) with
    | some g => .ok g
    | none => .error geojson_fail_msg
  else .error geojson_fail_msg

/-- Substring occurrence test (used to state what an error message names). -/
def containsSub (needle hay : String) : Bool :=
  hay.toList.tails.any (fun t => needle.toList.isPrefixOf t)

/-! ## Helper lemmas -/

theorem toList_append (s t : String) : (s ++ t).toList = s.toList ++ t.toList := by
  cases s; cases t; rfl

theorem eq_of_toList_eq {s t : String} (h : s.toList = t.toList) : s = t := by
  cases s; cases t; exact congrArg String.mk h

theorem toList_mk (l : List Char) : (String.mk l).toList = l := rfl

theorem digitsN_append (l r : List Char) (h : l.all Char.isDigit = true) :
    digitsN l.length (l ++ r) = some r := by
  induction l with
  | nil => rfl
  | cons c cs ih =>
    simp only [List.all_cons, Bool.and_eq_true] at h
    simp [digitsN, h.1, ih h.2]

theorem matchesBOPattern_of_parts (A B C : List Char)
    (hA : A.all Char.isDigit = true) (hB : B.all Char.isDigit = true)
    (hC : C.all Char.isDigit = true)
    (lA : A.length = 3) (lB : B.length = 5) (lC : C.length = 4) :
    matchesBOPattern (String.mk (A ++ '-' :: (B ++ '/' :: C))) = true := by
  have h3 : digitsN 3 (A ++ '-' :: (B ++ '/' :: C)) = some ('-' :: (B ++ '/' :: C)) := by
    rw [← lA]; exact digitsN_append A _ hA
  have h5 : digitsN 5 (B ++ '/' :: C) = some ('/' :: C) := by
    rw [← lB]; exact digitsN_append B _ hB
  have h4 : digitsN 4 C = some [] := by
    have := digitsN_append C [] hC
    rw [lC] at this; simpa using this
  simp [matchesBOPattern, h3, h5, h4]

theorem padTrim_length (n : Nat) (s : String) :
    (lastN n (zfill n s)).toList.length = n := by
  simp only [lastN, zfill, toList_mk, List.length_drop, List.length_append,
    List.length_replicate]
  omega

theorem padTrim_digits (n : Nat) (s : String) (hs : s.toList.all Char.isDigit = true) :
    (lastN n (zfill n s)).toList.all Char.isDigit = true := by
  simp only [lastN, zfill, toList_mk, List.all_eq_true] at *
  intro c hc
  have hc' := List.mem_of_mem_drop hc
  rcases List.mem_append.1 hc' with h | h
  · simp [List.eq_of_mem_replicate h]
  · exact hs c h

theorem digitRunsAux_all (l : List Char) :
    ∀ cur, cur.all Char.isDigit = true →
      ∀ r ∈ digitRunsAux cur l, r.all Char.isDigit = true := by
  induction l with
  | nil =>
    intro cur hcur r hr
    simp only [digitRunsAux] at hr
    split at hr
    · simp at hr
    · simp only [List.mem_singleton] at hr
      subst hr
      simpa using hcur
  | cons c cs ih =>
    intro cur hcur r hr
    simp only [digitRunsAux] at hr
    split at hr
    · exact ih _ (by simp_all) r hr
    · split at hr
      · exact ih [] rfl r hr
      · rcases List.mem_cons.1 hr with h | h
        · subst h; simpa using hcur
        · exact ih [] rfl r h

theorem digitRuns_all (s : String) :
    ∀ t ∈ digitRuns s, t.toList.all Char.isDigit = true := by
  intro t ht
  simp only [digitRuns, List.mem_map] at ht
  obtain ⟨r, hr, rfl⟩ := ht
  simpa using digitRunsAux_all s.toList [] rfl r hr

/-- The characters of the reconstructed report number `A-B/C`. -/
theorem builtBO_toList (a b c : String) :
    (lastN 3 (zfill 3 a) ++ "-" ++ lastN 5 (zfill 5 b) ++ "/" ++
      lastN 4 (zfill 4 c)).toList
    = (lastN 3 (zfill 3 a)).toList ++ '-' ::
      ((lastN 5 (zfill 5 b)).toList ++ '/' :: (lastN 4 (zfill 4 c)).toList) := by
  simp [toList_append]

theorem builtBO_matches (a b c : String)
    (ha : a.toList.all Char.isDigit = true) (hb : b.toList.all Char.isDigit = true)
    (hc : c.toList.all Char.isDigit = true) :
    matchesBOPattern (lastN 3 (zfill 3 a) ++ "-" ++ lastN 5 (zfill 5 b) ++ "/" ++
      lastN 4 (zfill 4 c)) = true := by
  have key := matchesBOPattern_of_parts (lastN 3 (zfill 3 a)).toList
    (lastN 5 (zfill 5 b)).toList (lastN 4 (zfill 4 c)).toList
    (padTrim_digits 3 a ha) (padTrim_digits 5 b hb) (padTrim_digits 4 c hc)
    (padTrim_length 3 a) (padTrim_length 5 b) (padTrim_length 4 c)
  have he : String.mk ((lastN 3 (zfill 3 a)).toList ++ '-' ::
      ((lastN 5 (zfill 5 b)).toList ++ '/' :: (lastN 4 (zfill 4 c)).toList))
      = lastN 3 (zfill 3 a) ++ "-" ++ lastN 5 (zfill 5 b) ++ "/" ++ lastN 4 (zfill 4 c) := by
    apply eq_of_toList_eq
    have hdash : "-".toList = ['-'] := rfl
    have hslash : "/".toList = ['/'] := rfl
    simp [toList_append, toList_mk, hdash, hslash]
  rw [← he]
  exact key

/-- Exhaustive case analysis of `normalize_bo` on a `some` input. -/
theorem normBO_cases (bo : Cell) :
    normalize_bo bo = none ∨
    (∃ s, bo = some s ∧ normalize_bo bo = some (stripBOChars s) ∧
      matchesBOPattern (stripBOChars s) = true) ∨
    (∃ s a b c rest, bo = some s ∧
      (digitRuns (stripBOChars s)).reverse = c :: b :: a :: rest ∧
      normalize_bo bo = some (lastN 3 (zfill 3 a) ++ "-" ++ lastN 5 (zfill 5 b) ++
        "/" ++ lastN 4 (zfill 4 c))) ∨
    (∃ s, bo = some s ∧ (digitRuns (stripBOChars s)).length < 3 ∧
      stripBOChars s ≠ "" ∧ normalize_bo bo = some (stripBOChars s)) := by
  cases bo with
  | none => exact Or.inl rfl
  | some s =>
    by_cases h1 : pyStrip s = ""
    · exact Or.inl (by simp [normalize_bo, h1])
    · by_cases h3 : stripBOChars s = ""
      · left
        simp only [normalize_bo]
        rw [if_neg h1]
        simp only [h3]
        rfl
      · by_cases h2 : matchesBOPattern (stripBOChars s) = true
        · exact Or.inr (Or.inl ⟨s, rfl, by simp [normalize_bo, h1, h2], h2⟩)
        · rcases hr : (digitRuns (stripBOChars s)).reverse with _ | ⟨c, _ | ⟨b, _ | ⟨a, rest⟩⟩⟩
          · have hlen : (digitRuns (stripBOChars s)).length < 3 := by
              rw [← List.length_reverse, hr]; simp
            exact Or.inr (Or.inr (Or.inr ⟨s, rfl, hlen, h3,
              by simp [normalize_bo, h1, h2, hr, h3]⟩))
          · have hlen : (digitRuns (stripBOChars s)).length < 3 := by
              rw [← List.length_reverse, hr]; simp
            exact Or.inr (Or.inr (Or.inr ⟨s, rfl, hlen, h3,
              by simp [normalize_bo, h1, h2, hr, h3]⟩))
          · have hlen : (digitRuns (stripBOChars s)).length < 3 := by
              rw [← List.length_reverse, hr]; simp
            exact Or.inr (Or.inr (Or.inr ⟨s, rfl, hlen, h3,
              by simp [normalize_bo, h1, h2, hr, h3]⟩))
          · exact Or.inr (Or.inr (Or.inl ⟨s, a, b, c, rest, rfl, hr,
              by simp [normalize_bo, h1, h2, hr]⟩))

/-- The three digit runs used by the reconstruction are runs of the stripped
string, hence all-digit. -/
theorem runs_of_reverse_mem (s : String) (a b c : String) (rest : List String)
    (hr : (digitRuns (stripBOChars s)).reverse = c :: b :: a :: rest) :
    a.toList.all Char.isDigit = true ∧ b.toList.all Char.isDigit = true ∧
      c.toList.all Char.isDigit = true := by
  have hma : a ∈ (digitRuns (stripBOChars s)).reverse := by rw [hr]; simp
  have hmb : b ∈ (digitRuns (stripBOChars s)).reverse := by rw [hr]; simp
  have hmc : c ∈ (digitRuns (stripBOChars s)).reverse := by rw [hr]; simp
  rw [List.mem_reverse] at hma hmb hmc
  exact ⟨digitRuns_all _ a hma, digitRuns_all _ b hmb, digitRuns_all _ c hmc⟩

/-- Characters of the stripped report-number string are digits or separators. -/
theorem stripBO_chars (s : String) :
    ∀ ch ∈ (stripBOChars s).toList, ch.isDigit = true ∨ ch = '-' ∨ ch = '/' := by
  intro ch hch
  simp only [stripBOChars, toList_mk, List.mem_filter, Bool.or_eq_true,
    decide_eq_true_eq] at hch
  tauto

/-- Characters of the reconstructed report number are digits or separators. -/
theorem builtBO_chars (a b c : String)
    (ha : a.toList.all Char.isDigit = true) (hb : b.toList.all Char.isDigit = true)
    (hc : c.toList.all Char.isDigit = true) :
    ∀ ch ∈ (lastN 3 (zfill 3 a) ++ "-" ++ lastN 5 (zfill 5 b) ++ "/" ++
      lastN 4 (zfill 4 c)).toList, ch.isDigit = true ∨ ch = '-' ∨ ch = '/' := by
  intro ch hch
  rw [builtBO_toList] at hch
  have hA := padTrim_digits 3 a ha
  have hB := padTrim_digits 5 b hb
  have hC := padTrim_digits 4 c hc
  rw [List.all_eq_true] at hA hB hC
  simp only [List.mem_append, List.mem_cons] at hch
  rcases hch with h | h | h
  · exact Or.inl (hA ch h)
  · exact Or.inr (Or.inl h)
  · rcases h with h | h
    · exact Or.inl (hB ch h)
    · rcases h with h | h
      · exact Or.inr (Or.inr h)
      · exact Or.inl (hC ch h)

/-! ## Claim theorems -/

/-- C2 (confirmed): for every input, `normalize_bo` returns exactly one of
`none`, a string matching `\d{3}-\d{5}/\d{4}`, or the stripped input string
unchanged, the latter exactly when the stripped string is non-empty and has
fewer than three maximal digit runs. -/
theorem normalize_bo_trichotomy (bo : Cell) :
    normalize_bo bo = none ∨
    (∃ r, normalize_bo bo = some r ∧ matchesBOPattern r = true) ∨
    (∃ s, bo = some s ∧ normalize_bo bo = some (stripBOChars s) ∧
      stripBOChars s ≠ "" ∧ (digitRuns (stripBOChars s)).length < 3) := by
  rcases normBO_cases bo with h | ⟨s, rfl, he, hp⟩ | ⟨s, a, b, c, rest, rfl, hr, he⟩ |
    ⟨s, rfl, hlen, hne, he⟩
  · exact Or.inl h
  · exact Or.inr (Or.inl ⟨_, he, hp⟩)
  · obtain ⟨ha, hb, hc⟩ := runs_of_reverse_mem s a b c rest hr
    exact Or.inr (Or.inl ⟨_, he, builtBO_matches a b c ha hb hc⟩)
  · exact Or.inr (Or.inr ⟨s, rfl, he, hne, hlen⟩)

/-- C1 (counterexample): `normalize_bo` can return a non-null value that does
not match the pattern `\d{3}-\d{5}/\d{4}` — on input `"12"` it returns
`"12"`. -/
theorem normalize_bo_pattern_counterexample :
    normalize_bo (some "12") = some "12" ∧ matchesBOPattern "12" = false := by
  constructor
  · decide
  · decide

/-- C1 (corrected): a non-null result of `normalize_bo` either matches the
pattern `\d{3}-\d{5}/\d{4}` or is the stripped input string, the latter
arising when the stripped string has fewer than three maximal digit runs. -/
theorem normalize_bo_nonnull_shape (bo : Cell) (r : String)
    (h : normalize_bo bo = some r) :
    matchesBOPattern r = true ∨
    (∃ s, bo = some s ∧ r = stripBOChars s ∧
      (digitRuns (stripBOChars s)).length < 3) := by
  rcases normBO_cases bo with h0 | ⟨s, hbo, he, hp⟩ | ⟨s, a, b, c, rest, hbo, hr, he⟩ |
    ⟨s, hbo, hlen, hne, he⟩
  · rw [h0] at h; cases h
  · rw [he] at h
    rw [Option.some.injEq] at h
    subst h
    exact Or.inl hp
  · rw [he] at h
    rw [Option.some.injEq] at h
    subst h
    obtain ⟨ha, hb, hc⟩ := runs_of_reverse_mem s a b c rest hr
    exact Or.inl (builtBO_matches a b c ha hb hc)
  · rw [he] at h
    rw [Option.some.injEq] at h
    subst h
    exact Or.inr ⟨s, hbo, rfl, hlen⟩

/-- Witness for C1: the corrected statement instantiated at input `"12"`. -/
theorem normalize_bo_nonnull_shape_witness :
    matchesBOPattern "12" = true ∨
    (∃ s, (some "12" : Cell) = some s ∧ "12" = stripBOChars s ∧
      (digitRuns (stripBOChars s)).length < 3) :=
  normalize_bo_nonnull_shape (some "12") "12" (by decide)

/-- C10 (confirmed): every non-null result of `normalize_bo` consists only of
digits, `-` and `/`, hence can never equal the sentinel `"__NA__"` that the
report-number duplicate detector substitutes for missing values. -/
theorem normalize_bo_never_sentinel (bo : Cell) (r : String)
    (h : normalize_bo bo = some r) :
    (∀ ch ∈ r.toList, ch.isDigit = true ∨ ch = '-' ∨ ch = '/') ∧ r ≠ "__NA__" := by
  have hchars : ∀ ch ∈ r.toList, ch.isDigit = true ∨ ch = '-' ∨ ch = '/' := by
    rcases normBO_cases bo with h0 | ⟨s, hbo, he, hp⟩ | ⟨s, a, b, c, rest, hbo, hr, he⟩ |
      ⟨s, hbo, hlen, hne, he⟩
    · rw [h0] at h; cases h
    · rw [he] at h
      rw [Option.some.injEq] at h
      subst h
      exact stripBO_chars s
    · rw [he] at h
      rw [Option.some.injEq] at h
      subst h
      obtain ⟨ha, hb, hc⟩ := runs_of_reverse_mem s a b c rest hr
      exact builtBO_chars a b c ha hb hc
    · rw [he] at h
      rw [Option.some.injEq] at h
      subst h
      exact stripBO_chars s
  refine ⟨hchars, ?_⟩
  intro hEq
  subst hEq
  have h_ := hchars '_' (by decide)
  rcases h_ with h_ | h_ | h_ <;> exact absurd h_ (by decide)

/-- Witness for C10: the statement instantiated at a canonical input. -/
theorem normalize_bo_never_sentinel_witness :
    (∀ ch ∈ ("123-45678/9012" : String).toList,
      ch.isDigit = true ∨ ch = '-' ∨ ch = '/') ∧
    ("123-45678/9012" : String) ≠ "__NA__" :=
  normalize_bo_never_sentinel (some "123-45678/9012") "123-45678/9012" (by decide)

/-- C7 (counterexample): the empty-string input does not map to null —
`normalize_text` returns the empty string for it (`pd.isna("")` is false). -/
theorem normalize_text_empty_counterexample :
    normalize_text (some "") = some "" ∧ normalize_text (some "") ≠ none := by
  constructor
  · rfl
  · decide

/-- C7 (corrected): `normalize_text` never fails and returns null exactly for
null input; every string input — the empty string included — yields a string. -/
theorem normalize_text_none_iff (s : Cell) :
    normalize_text s = none ↔ s = none := by
  cases s with
  | none => simp [normalize_text, strip_all, normalize_spaces]
  | some t => simp [normalize_text, strip_all, normalize_spaces]

/-- Witness for C7: the corrected statement instantiated at the empty string. -/
theorem normalize_text_none_iff_witness :
    (normalize_text (some "") = none ↔ (some "" : Cell) = none) :=
  normalize_text_none_iff (some "")

/-- C4 (confirmed): on `"03/04/2024"` both the day-first and the month-first
readings are valid calendar dates, and `try_parse_date_any` returns the
day-first interpretation 2024-04-03, because `%d/%m/%Y` is tried first —
independently of what the pandas fallback would return. -/
theorem date_dayfirst_tiebreak (fallback : Bool → String → Option PDate) :
    try_parse_date_any fallback (some "03/04/2024") = some ⟨2024, 4, 3⟩ ∧
    parseMDY '/' "03/04/2024" = some ⟨2024, 3, 4⟩ :=
  ⟨rfl, rfl⟩

/-- C8 (corrected): when every source of the fallback chain fails, the fetch
fails with the single aggregated `RuntimeError`, whose message is a fixed
string (independent of the requested region code). -/
theorem geojson_all_sources_fail {α : Type} (fetch fetchInsecure : String → Option α)
    (uf_code : String) (allow_insecure : Bool)
    (hf : ∀ url, fetch url = none) (hi : ∀ url, fetchInsecure url = none) :
    load_geojson_municipios fetch fetchInsecure uf_code allow_insecure
      = Except.error geojson_fail_msg := by
  cases allow_insecure <;> simp [load_geojson_municipios, hf, hi]

/-- Witness for C8: the corrected statement at region code `"33"` with every
source failing and the insecure retry enabled. -/
theorem geojson_all_sources_fail_witness :
    load_geojson_municipios (fun _ => (none : Option Unit)) (fun _ => none) "33" true
      = Except.error geojson_fail_msg :=
  geojson_all_sources_fail _ _ "33" true (fun _ => rfl) (fun _ => rfl)

/-- C8 (counterexample): for region code `"33"` with every source failing, the
aggregated error message does not contain the region code it was asked for. -/
theorem geojson_error_unnamed_counterexample :
    load_geojson_municipios (fun _ => (none : Option Unit)) (fun _ => none) "33" false
      = Except.error geojson_fail_msg ∧
    containsSub "33" geojson_fail_msg = false := by
  constructor
  · rfl
  · decide

theorem getD_map_of_lt {α β : Type} (l : List α) (f : α → β) (i : Nat)
    (h : i < l.length) (d : β) (d' : α) :
    (l.map f).getD i d = f (l.getD i d') := by
  rw [List.getD_eq_getElem?_getD, List.getD_eq_getElem?_getD, List.getElem?_map,
    List.getElem?_eq_getElem h]
  rfl

theorem two_le_count_of_getElem {α : Type} [DecidableEq α] (l : List α) (x : α)
    (i j : Nat) (hij : i ≠ j) (hi : l[i]? = some x) (hj : l[j]? = some x) :
    2 ≤ l.count x := by
  induction l generalizing i j with
  | nil => simp at hi
  | cons a t ih =>
    cases i with
    | zero =>
      cases j with
      | zero => exact absurd rfl hij
      | succ m =>
        simp only [List.getElem?_cons_zero, Option.some.injEq] at hi
        simp only [List.getElem?_cons_succ] at hj
        have hmem : x ∈ t := List.getElem?_mem hj
        subst hi
        rw [List.count_cons_self]
        have hpos := List.count_pos_iff.2 hmem
        omega
    | succ n =>
      cases j with
      | zero =>
        simp only [List.getElem?_cons_zero, Option.some.injEq] at hj
        simp only [List.getElem?_cons_succ] at hi
        have hmem : x ∈ t := List.getElem?_mem hi
        subst hj
        rw [List.count_cons_self]
        have hpos := List.count_pos_iff.2 hmem
        omega
      | succ m =>
        simp only [List.getElem?_cons_succ] at hi hj
        have hnm : n ≠ m := fun hEq => hij (by rw [hEq])
        have h2 := ih n m hnm hi hj
        have hle : t.count x ≤ (a :: t).count x := by
          rw [List.count_cons]
          omega
        omega

theorem exists_other_of_two_le_count {α : Type} [DecidableEq α] (l : List α)
    (x : α) (i : Nat) (hi : l[i]? = some x) (h2 : 2 ≤ l.count x) :
    ∃ j, j ≠ i ∧ l[j]? = some x := by
  induction l generalizing i with
  | nil => simp at hi
  | cons a t ih =>
    cases i with
    | zero =>
      simp only [List.getElem?_cons_zero, Option.some.injEq] at hi
      subst hi
      rw [List.count_cons_self] at h2
      have hmem : a ∈ t := List.count_pos_iff.1 (by omega)
      obtain ⟨m, hm⟩ := List.mem_iff_getElem?.1 hmem
      exact ⟨m + 1, by simp, by simpa using hm⟩
    | succ n =>
      simp only [List.getElem?_cons_succ] at hi
      by_cases hax : a = x
      · exact ⟨0, by simp, by simp [hax]⟩
      · have h2' : 2 ≤ t.count x := by
          rw [List.count_cons] at h2
          have hxa : (a == x) = false := beq_eq_false_iff_ne.2 hax
          rw [hxa] at h2
          simpa using h2
        obtain ⟨m, hm, hmx⟩ := ih n hi h2'
        exact ⟨m + 1, by simpa using hm, by simpa using hmx⟩

/-- Shared characterization of the `Duplicado_ID` flag at a position. -/
theorem duplicado_id_getD (ids : List Cell) (i : Nat) (h : i < ids.length) :
    (Duplicado_ID ids).getD i false
      = decide (2 ≤ (ids.map pdStr).count ((ids.map pdStr).getD i "")) := by
  have hl : i < (ids.map pdStr).length := by simpa using h
  exact getD_map_of_lt (ids.map pdStr) _ i hl false ""

/-- C3 (counterexample): identifiers `"A1"` and `"a1"` are compared as exact
text — neither record is flagged as an identifier duplicate. -/
theorem duplicado_id_case_counterexample :
    Duplicado_ID [some "A1", some "a1"] = [false, false] := by decide

/-- C3 (corrected): a record's identifier-duplicate flag is true exactly when
its identifier, rendered as text and compared case-sensitively, occurs more
than once in the dataset — the first occurrence included, and a record with a
unique identifier text is flagged false. -/
theorem duplicado_id_flag (ids : List Cell) (i : Nat) (h : i < ids.length) :
    ((Duplicado_ID ids).getD i false = true ↔
      2 ≤ (ids.map pdStr).count ((ids.map pdStr).getD i "")) := by
  rw [duplicado_id_getD ids i h]
  simp

/-- Witness for C3: two records with identifier text `"X"` are both flagged. -/
theorem duplicado_id_flag_witness :
    (Duplicado_ID [some "X", some "X"]).getD 0 false = true :=
  (duplicado_id_flag [some "X", some "X"] 0 (by decide)).2 (by decide)

/-- C9 (confirmed): in a dataset with two or more records whose identifier is
missing, every record with a missing identifier is flagged as an identifier
duplicate, because `astype(str)` renders every missing identifier as the same
text `"nan"`. -/
theorem duplicado_id_missing_pair (ids : List Cell) (i j k : Nat)
    (hij : i ≠ j) (hi : ids[i]? = some none) (hj : ids[j]? = some none)
    (hk : ids[k]? = some none) :
    (Duplicado_ID ids).getD k false = true := by
  have hk' : k < ids.length := by
    by_contra hcon
    rw [List.getElem?_eq_none (by omega)] at hk
    cases hk
  have hmi : (ids.map pdStr)[i]? = some "nan" := by
    rw [List.getElem?_map, hi]; rfl
  have hmj : (ids.map pdStr)[j]? = some "nan" := by
    rw [List.getElem?_map, hj]; rfl
  have hmk : (ids.map pdStr).getD k "" = "nan" := by
    rw [List.getD_eq_getElem?_getD, List.getElem?_map, hk]; rfl
  have h2 := two_le_count_of_getElem (ids.map pdStr) "nan" i j hij hmi hmj
  rw [duplicado_id_getD ids k hk', hmk]
  simpa using h2

/-- Witness for C9: two missing identifiers, both flagged. -/
theorem duplicado_id_missing_pair_witness :
    (Duplicado_ID [none, none]).getD 0 false = true :=
  duplicado_id_missing_pair [none, none] 0 1 0 (by decide) rfl rfl rfl

/-- C6 (confirmed): a record whose normalized report number is null is always
flagged false for report-number duplication, and a record is flagged true only
when it shares an equal non-null normalized report number with some other
record. -/
theorem duplicado_bo_null_excluded (bos : List Cell) (i : Nat) :
    (bos[i]? = some none → (Duplicado_BO bos)[i]? = some false) ∧
    ((Duplicado_BO bos)[i]? = some true →
      ∃ s j, j ≠ i ∧ bos[i]? = some (some s) ∧ bos[j]? = some (some s)) := by
  constructor
  · intro hi
    simp only [Duplicado_BO, List.getElem?_map, hi]
    simp
  · intro hflag
    simp only [Duplicado_BO, List.getElem?_map] at hflag
    rcases hcell : bos[i]? with _ | c
    · rw [hcell] at hflag; cases hflag
    · rw [hcell] at hflag
      simp only [Option.map_some', Option.some.injEq] at hflag
      rw [Bool.and_eq_true] at hflag
      obtain ⟨hcount, hne⟩ := hflag
      rw [bne_iff_ne] at hne
      rw [decide_eq_true_eq] at hcount
      rcases c with _ | s
      · simp only [Option.getD_none] at hne
        exact absurd rfl hne
      · simp only [Option.getD_some] at hcount hne
        have hmi : (bos.map (fun c => c.getD "__NA__"))[i]? = some s := by
          rw [List.getElem?_map, hcell]; rfl
        obtain ⟨j, hji, hjx⟩ :=
          exists_other_of_two_le_count (bos.map (fun c => c.getD "__NA__")) s i hmi hcount
        rw [List.getElem?_map] at hjx
        rcases hcellj : bos[j]? with _ | cj
        · rw [hcellj] at hjx; cases hjx
        · rw [hcellj] at hjx
          simp only [Option.map_some', Option.some.injEq] at hjx
          rcases cj with _ | sj
          · simp only [Option.getD_none] at hjx
            exact absurd hjx.symm hne
          · simp only [Option.getD_some] at hjx
            refine ⟨s, j, hji, rfl, ?_⟩
            rw [hcellj, hjx]

/-- Witness for C6: with normalized numbers `["1", "1", null, null]` the two
null records are flagged false and record 0 shares `"1"` with record 1. -/
theorem duplicado_bo_null_excluded_witness :
    ((Duplicado_BO [some "1", some "1", none, none])[3]? = some false) ∧
    (∃ s j, j ≠ 0 ∧ ([some "1", some "1", none, none] : List Cell)[0]? = some (some s) ∧
      ([some "1", some "1", none, none] : List Cell)[j]? = some (some s)) :=
  ⟨(duplicado_bo_null_excluded [some "1", some "1", none, none] 3).1 rfl,
   (duplicado_bo_null_excluded [some "1", some "1", none, none] 0).2 (by decide)⟩

theorem lookup_keys_map (keys : List String) (f : String → Nat) (k : String) :
    (keys.map (fun x => (x, f x))).lookup k
      = if k ∈ keys then some (f k) else none := by
  induction keys with
  | nil => simp [List.lookup]
  | cons a t ih =>
    simp only [List.map_cons, List.lookup]
    by_cases h : k = a
    · subst h
      simp
    · have hka : (k == a) = false := beq_eq_false_iff_ne.2 h
      rw [hka]
      simp [ih, h]

/-- The merged-then-`fillna` count of a key is the plain occurrence count. -/
theorem city_counts_getD (cities : List Cell) (k : String) :
    ((city_counts cities).lookup k).getD 0 = (cities.map apply_city_fix).count k := by
  unfold city_counts
  rw [lookup_keys_map]
  by_cases h : k ∈ (cities.map apply_city_fix).dedup
  · simp [h]
  · have hnm : k ∉ cities.map apply_city_fix := fun hm => h (List.mem_dedup.2 hm)
    simp [h]
    exact (List.count_eq_zero.2 hnm).symm

/-- C5 (corrected): the aggregation is a left join from boundaries — every
boundary entry appears, with count the number of records whose fixed
(reconciled) city name equals the boundary's *normalized* display name
(accent-stripped, upper-cased, trimmed, but without the `CITY_FIX` correction
table), `0` when none — and the unmatched-name set is exactly the record-side
canonical names equal to no boundary's normalized display name. -/
theorem geo_left_join (bs : List Boundary) (cities : List Cell) :
    joined bs cities
      = bs.map (fun b =>
          (b.id, (cities.map apply_city_fix).count (norm_city_name b.name)))
    ∧ ∀ k, (k ∈ nao_casaram bs cities ↔
        (k ∈ cities.map apply_city_fix ∧ ∀ b ∈ bs, norm_city_name b.name ≠ k)) := by
  constructor
  · unfold joined
    apply List.map_congr_left
    intro b _
    rw [city_counts_getD]
  · intro k
    simp [nao_casaram, List.mem_filter, List.mem_dedup]

/-- Witness for C5: the specification's own example — boundaries
`Rio De Janeiro` and `Niteroi`, one record in `Rio de Janeiro`. -/
theorem geo_left_join_witness :
    joined [⟨1, some "Rio De Janeiro"⟩, ⟨2, some "Niteroi"⟩] [some "Rio de Janeiro"]
      = [(1, 1), (2, 0)] ∧
    nao_casaram [⟨1, some "Rio De Janeiro"⟩, ⟨2, some "Niteroi"⟩]
      [some "Rio de Janeiro"] = [] := by
  have h := geo_left_join [⟨1, some "Rio De Janeiro"⟩, ⟨2, some "Niteroi"⟩]
    [some "Rio de Janeiro"]
  refine ⟨?_, ?_⟩
  · rw [h.1]
    decide
  · decide

/-- C5 (counterexample): the record side and the boundary side are not
canonicalized by the same function.  For the boundary display name
`"Duque de Caxia"` (whose reconciled form is `"DUQUE DE CAXIAS"`) and one
record with the same city text, the record's reconciled name equals the
boundary's reconciled name, yet the code joins on the boundary's merely
normalized name and yields count 0 and an unmatched name. -/
theorem geo_reconcile_counterexample :
    joined [⟨1, some "Duque de Caxia"⟩] [some "Duque de Caxia"] = [(1, 0)] ∧
    apply_city_fix (some "Duque de Caxia") = "DUQUE DE CAXIAS" ∧
    (([some "Duque de Caxia"] : List Cell).map apply_city_fix).count
      (apply_city_fix (some "Duque de Caxia")) = 1 ∧
    nao_casaram [⟨1, some "Duque de Caxia"⟩] [some "Duque de Caxia"]
      = ["DUQUE DE CAXIAS"] := by
  refine ⟨?_, ?_, ?_, ?_⟩ <;> decide

end ROManager
